import Mathlib

/-!
Shallow embedding of `src/zydis_fuzzer.cc` (a fuzzer harness for the Zydis
x86 decoder) and proofs about its specification claims.

The C program's only source of nondeterminism is the C library `rand()`
stream, seeded once by `srand` in `main`.  We model the stream as a function
`seq : Nat → Nat` together with a cursor `pos : Nat`; each call of `rand()`
reads `seq pos % 2^31` (a nonnegative C `int`) and advances the cursor.
Byte stores through `uint8_t` lvalues truncate modulo 256, written
explicitly.  Buffers are `List Nat` of byte values.
-/

set_option maxRecDepth 100000

namespace ZydisFuzzer

/-- One draw of the C `rand()` stream: the value at cursor `pos`, reduced to
the nonnegative `int` range `[0, 2^31)`. -/
def rand (seq : Nat → Nat) (pos : Nat) : Nat := seq pos % 2147483648

/-- The `prefix_collection` table of `generate_prefix_bytes`
(`src/zydis_fuzzer.cc` lines 81–96): 44 single-byte x86 prefixes, the last
16 of which are the REX prefixes 0x40–0x4F. -/
def prefix_collection : List Nat :=
  [0x66, 0x67, 0xF2, 0xF3,
   0x66, 0x67, 0xF2, 0xF3,
   0x66, 0x67, 0xF2, 0xF3,
   0x66, 0x67, 0xF2, 0xF3,

   0x26, 0x2E, 0x36, 0x3E,
   0x26, 0x2E, 0x36, 0x3E,
   0x64, 0x65, 0x66, 0xF0,

   0x40, 0x41, 0x42, 0x43,
   0x44, 0x45, 0x46, 0x47,
   0x48, 0x49, 0x4A, 0x4B,
   0x4C, 0x4D, 0x4E, 0x4F]

/-- `generate_prefix_bytes` (lines 77–108): writes `bytecount` bytes drawn
from `prefix_collection`; in 64-bit mode the index is `rand() % 44`
(the full table), otherwise `rand() % 28` (the table minus its 16 REX
entries, `sizeof(prefix_collection) - 16u`).  Returns the bytes written and
the advanced rand cursor. -/
def generate_prefix_bytes (seq : Nat → Nat) (pos : Nat) (bytecount : Nat)
    (is_64bit : Bool) : List Nat × Nat :=
  if is_64bit then
    (((List.range bytecount).map fun i =>
        prefix_collection.getD (rand seq (pos + i) % 44) 0), pos + bytecount)
  else
    (((List.range bytecount).map fun i =>
        prefix_collection.getD (rand seq (pos + i) % 28) 0), pos + bytecount)

/-- The prefix-count transform of `generate_rand_instr` (lines 129–130):
`num_prefixes = (r2*r2*r2) >> 20` for `r2 = rand() % 254`. -/
def num_prefixes_of (r : Nat) : Nat := (r * r * r) >>> 20

/-- The escape-sequence classes of the `switch( rand() % 50 )` statement in
`generate_rand_instr` (lines 138–189). -/
inductive EscClass where
  | noEscape   -- case 0: regular instructions without escapes
  | threeDNow  -- case 1: 0F 0F (3dnow)
  | map0F38    -- case 2: 0F 38 escape
  | map0F3A    -- case 3: 0F 3A escape
  | map0F      -- case 4: 0F escape
  | evex       -- cases 5–10
  | vex3       -- cases 11–16
  | vex2       -- cases 17–22
  | xop        -- default: cases 23–49
  deriving DecidableEq

/-- Which class each draw value `d = rand() % 50` selects, mirroring the
case labels of the switch. -/
def escClass (d : Nat) : EscClass :=
  match d with
  | 0 => .noEscape
  | 1 => .threeDNow
  | 2 => .map0F38
  | 3 => .map0F3A
  | 4 => .map0F
  | d =>
    if d ≤ 10 then .evex
    else if d ≤ 16 then .vex3
    else if d ≤ 22 then .vex2
    else .xop

/-- The shared final-byte expression `rv | ((rv & 0x300) ? 0 : 0x78)` of the
EVEX/VEX3/VEX2/XOP branches (lines 154, 167, 178, 186), truncated to a
`uint8_t` store. -/
def vvvvByte (rv : Nat) : Nat :=
  (rv ||| (if rv &&& 0x300 ≠ 0 then 0 else 0x78)) % 256

/-- EVEX branch, cases 5–10 (lines 149–156): bytes `0x62`,
`rv1 & ((rv1 & 0x300) ? 0xF7 : 0xFF)`, then the vvvv byte from `rv2`. -/
def evexBytes (rv1 rv2 : Nat) : List Nat :=
  [0x62, (rv1 &&& (if rv1 &&& 0x300 ≠ 0 then 0xF7 else 0xFF)) % 256,
   vvvvByte rv2]

/-- VEX3 branch, cases 11–16 (lines 162–168): bytes `0xC4`,
`rv1 & ((rv1 & 0x300) ? 0xE3 : 0xFF)`, then the vvvv byte from `rv2`. -/
def vex3Bytes (rv1 rv2 : Nat) : List Nat :=
  [0xC4, (rv1 &&& (if rv1 &&& 0x300 ≠ 0 then 0xE3 else 0xFF)) % 256,
   vvvvByte rv2]

/-- VEX2 branch, cases 17–22 (lines 175–179): bytes `0xC5` and the vvvv
byte from the single random word `rv`. -/
def vex2Bytes (rv : Nat) : List Nat :=
  [0xC5, vvvvByte rv]

/-- XOP branch, default cases 23–49 (lines 181–188): bytes `0x8F`,
`(rv1 & ((rv1 & 0x300) ? 0xE3 : 0xFF)) ^ 8`, then the vvvv byte from
`rv2`. -/
def xopBytes (rv1 rv2 : Nat) : List Nat :=
  [0x8F, ((rv1 &&& (if rv1 &&& 0x300 ≠ 0 then 0xE3 else 0xFF)) ^^^ 8) % 256,
   vvvvByte rv2]

/-- The escape-sequence part of `generate_rand_instr` (lines 138–189): draw
`rand() % 50`, dispatch on its class, emit 0–3 bytes, consuming zero, one
or two further rand words as the branch does. -/
def escape_bytes (seq : Nat → Nat) (pos : Nat) : List Nat × Nat :=
  match escClass (rand seq pos % 50) with
  | .noEscape  => ([], pos + 1)
  | .threeDNow => ([0x0F, 0x0F], pos + 1)
  | .map0F38   => ([0x0F, 0x38], pos + 1)
  | .map0F3A   => ([0x0F, 0x3A], pos + 1)
  | .map0F     => ([0x0F], pos + 1)
  | .evex      => (evexBytes (rand seq (pos + 1)) (rand seq (pos + 2)), pos + 3)
  | .vex3      => (vex3Bytes (rand seq (pos + 1)) (rand seq (pos + 2)), pos + 3)
  | .vex2      => (vex2Bytes (rand seq (pos + 1)), pos + 2)
  | .xop       => (xopBytes (rand seq (pos + 1)) (rand seq (pos + 2)), pos + 3)

/-- `generate_rand_instr` (lines 125–198): a prefix run of
`(r2³) >> 20` bytes (`r2 = rand() % 254`), an escape sequence, then
`rand() & 0xFF` fill bytes up to the fixed 64-byte length.  Returns the
64-byte buffer and the advanced rand cursor. -/
def generate_rand_instr (seq : Nat → Nat) (pos : Nat) (is_64bit : Bool) :
    List Nat × Nat :=
  let num_prefixes := num_prefixes_of (rand seq pos % 254)
  let pre := generate_prefix_bytes seq (pos + 1) num_prefixes is_64bit
  let esc := escape_bytes seq pre.2
  let head := pre.1 ++ esc.1
  (head ++ (List.range (64 - head.length)).map
      (fun i => rand seq (esc.2 + i) &&& 0xFF),
   esc.2 + (64 - head.length))

/-- Number of draw values `r ∈ [0, 253]` whose cubic transform yields the
prefix count `k`. -/
def countPrefixCount (k : Nat) : Nat :=
  ((List.range 254).filter fun r => num_prefixes_of r = k).length

/-- Number of draw values `d ∈ [0, 49]` selecting escape class `c`. -/
def classCount (c : EscClass) : Nat :=
  ((List.range 50).filter fun d => escClass d = c).length

/- ----------------------------------------------------------------- -/
/- Decoder configurations, memento and main loop                      -/
/- ----------------------------------------------------------------- -/

/-- The machine-mode identifiers of the external Zydis API
(`ZydisMachineMode`); the program stores one in `machine_mode_int` and
switches over it in `wrapped_ZydisDecoderDecodeBuffer` (lines 219–225). -/
inductive ZydisMachineMode where
  | LONG_64
  | LONG_COMPAT_32
  | LONG_COMPAT_16
  | LEGACY_32
  | LEGACY_16
  | REAL_16
  deriving DecidableEq

/-- The label chosen by the `switch( machine_mode_int )` of
`wrapped_ZydisDecoderDecodeBuffer` (lines 219–225). -/
def machine_mode_label : ZydisMachineMode → String
  | .LONG_64   => "long64"
  | .LEGACY_32 => "protected32"
  | .LEGACY_16 => "protected16"
  | .REAL_16   => "real16"
  | _          => "(n/a)"

/-- The fields of the external `ZydisDecoder` that this program sets or
reads: machine mode and address width from `ZydisDecoderInit`, and the two
`ZydisDecoderEnableMode` flags (KNC, AMD branches). -/
structure ZydisDecoder where
  machine_mode : ZydisMachineMode
  address_width : Nat
  knc_mode : Bool
  amd_branches : Bool
  deriving DecidableEq

/-- `decoder_x86_16` as initialized in `main` (lines 255, 260). -/
def decoder_x86_16 : ZydisDecoder := ⟨.LEGACY_16, 16, true, false⟩

/-- `decoder_x86_32` as initialized in `main` (lines 256, 261). -/
def decoder_x86_32 : ZydisDecoder := ⟨.LEGACY_32, 32, true, false⟩

/-- `decoder_x86_64_intel` as initialized in `main` (lines 257, 262). -/
def decoder_x86_64_intel : ZydisDecoder := ⟨.LONG_64, 64, true, false⟩

/-- `decoder_x86_64_amd` as initialized in `main` (lines 258, 263, 265). -/
def decoder_x86_64_amd : ZydisDecoder := ⟨.LONG_64, 64, true, true⟩

/-- The process-wide recorded data for the last instruction (lines 21–23):
`instr_buf`, `machine_mode_int` and `machine_mode_str`. -/
structure Memento where
  instr_buf : List Nat
  machine_mode_int : ZydisMachineMode
  machine_mode_str : String
  deriving DecidableEq

/-- `wrapped_ZydisDecoderDecodeBuffer` (lines 211–231): copies the first 16
bytes of the buffer and the decoder's machine mode (with its label) into
the memento, then calls the external decoder.  The external
`ZydisDecoderDecodeBuffer` is abstracted as `decode`; it receives the
memento state in effect at the moment of the call, which by construction
is the freshly written one. -/
def wrapped_ZydisDecoderDecodeBuffer {α : Type} (decode : Memento →
    ZydisDecoder → List Nat → Nat → α) (_m : Memento) (decoder : ZydisDecoder)
    (buffer : List Nat) (length : Nat) : Memento × α :=
  let recorded : Memento :=
    ⟨buffer.take 16, decoder.machine_mode,
     machine_mode_label decoder.machine_mode⟩
  (recorded, decode recorded decoder buffer length)

/-- The `switch( rand() & 3 )` of the main loop (lines 276–281): selects
the decoder and the `bits` value for one iteration. -/
def select_config (v : Nat) : ZydisDecoder × Nat :=
  if v &&& 3 = 0 then (decoder_x86_16, 16)
  else if v &&& 3 = 1 then (decoder_x86_32, 32)
  else if v &&& 3 = 2 then (decoder_x86_64_intel, 64)
  else (decoder_x86_64_amd, 64)

/-- One iteration of the main loop (lines 272–301, progress printing
aside): pick the configuration from `rand() & 3`, generate a 64-byte
candidate with the 64-bit flag `bits == 64`, submit it through the wrapped
decoder.  Returns the new memento, the new rand cursor, the submission
(decoder and buffer) and the decoder's result. -/
def fuzz_iteration {α : Type} (decode : Memento → ZydisDecoder → List Nat →
    Nat → α) (seq : Nat → Nat) (pos : Nat) (m : Memento) :
    Memento × Nat × (ZydisDecoder × List Nat) × α :=
  let cfg := select_config (rand seq pos)
  let gen := generate_rand_instr seq (pos + 1) (cfg.2 == 64)
  let sub := wrapped_ZydisDecoderDecodeBuffer decode m cfg.1 gen.1 64
  (sub.1, gen.2, (cfg.1, gen.1), sub.2)

/-- `n` iterations of the main loop starting from memento `m0` and rand
cursor 0 (the rand stream is seeded once at startup and consumed
sequentially).  Returns the final memento, the final rand cursor, the list
of submissions and the list of decoder results. -/
def fuzz_run {α : Type} (decode : Memento → ZydisDecoder → List Nat → Nat → α)
    (seq : Nat → Nat) (m0 : Memento) :
    Nat → Memento × Nat × List (ZydisDecoder × List Nat) × List α
  | 0 => (m0, 0, [], [])
  | n + 1 =>
    let acc := fuzz_run decode seq m0 n
    let step := fuzz_iteration decode seq acc.2.1 acc.1
    (step.1, step.2.1, acc.2.2.1 ++ [step.2.2.1], acc.2.2.2 ++ [step.2.2.2])

/- ----------------------------------------------------------------- -/
/- Fault handler                                                      -/
/- ----------------------------------------------------------------- -/

/-- The signal values the handler switches over (lines 38–43); `other`
covers the default case. -/
inductive SignalType where
  | SIGABRT
  | SIGSEGV
  | SIGBUS
  | other
  deriving DecidableEq

/-- The signal name chosen by the handler's switch (lines 38–43). -/
def sigstr : SignalType → String
  | .SIGABRT => "SIGABRT"
  | .SIGSEGV => "SIGSEGV"
  | .SIGBUS  => "SIGBUS"
  | .other   => "n/a"

/-- One observable action of the handler: a write to standard output or a
flush of it. -/
inductive OutEvent where
  | out (s : String)
  | flush
  deriving DecidableEq

/-- `EXIT_FAILURE` of the C library. -/
def EXIT_FAILURE : Nat := 1

/-- Uppercase hexadecimal digit for a value below 16, as `printf("%02X")`
renders one nibble. -/
def hex_digit (n : Nat) : Char :=
  if n < 10 then Char.ofNat (48 + n) else Char.ofNat (55 + n)

/-- `printf("%02X", b)` for a `uint8_t` value `b`: exactly two uppercase
hexadecimal digits. -/
def hex2 (b : Nat) : String :=
  ⟨[hex_digit (b / 16 % 16), hex_digit (b % 16)]⟩

/-- The `printf("%02X ", instr_buf[i])` output for one recorded byte
(line 47). -/
def outHex (b : Nat) : OutEvent := .out (hex2 b ++ " ")

/-- The integer value of each `ZydisMachineMode` constant, following the
declaration order of the enum in the external Zydis header (the values are
not part of this repository's source). -/
def ZydisMachineMode.toCInt : ZydisMachineMode → Nat
  | .LONG_64        => 0
  | .LONG_COMPAT_32 => 1
  | .LONG_COMPAT_16 => 2
  | .LEGACY_32      => 3
  | .LEGACY_16      => 4
  | .REAL_16        => 5

/-- The `printf("Machine mode: %d (%s)\n", ...)` line of the handler
(line 44). -/
def modeLine (m : Memento) : String :=
  "Machine mode: " ++ toString m.machine_mode_int.toCInt ++ " (" ++
    m.machine_mode_str ++ ")\n"

/-- `sigabrt_handler` (lines 33–51): prints a blank line, the machine-mode
line, the `Opcode at time of <signal>:` line, then the 16 recorded bytes
`instr_buf[0..15]` each as two hex digits plus a space, a final newline,
flushes stdout, and exits with `EXIT_FAILURE`.  Modelled as the emitted
event trace plus the exit status; its only inputs are the signal number
and the recorded memento. -/
def sigabrt_handler (signal_type : SignalType) (m : Memento) :
    List OutEvent × Nat :=
  ([.out "\n", .out (modeLine m),
    .out ("Opcode at time of " ++ sigstr signal_type ++ ":\n")] ++
   (List.range 16).map (fun i => outHex (m.instr_buf.getD i 0)) ++
   [.out "\n", .flush],
   EXIT_FAILURE)

/- ----------------------------------------------------------------- -/
/- Helper lemmas                                                     -/
/- ----------------------------------------------------------------- -/

theorem prefix_collection_no_rex_below_28 :
    ∀ j, j < 28 →
      ¬(0x40 ≤ prefix_collection.getD j 0 ∧ prefix_collection.getD j 0 ≤ 0x4F) := by
  decide

theorem generate_prefix_bytes_length (seq : Nat → Nat) (pos n : Nat)
    (b : Bool) : (generate_prefix_bytes seq pos n b).1.length = n := by
  cases b <;> simp [generate_prefix_bytes]

theorem num_prefixes_of_le (r : Nat) (h : r < 254) : num_prefixes_of r ≤ 15 := by
  revert r h
  decide

theorem escape_bytes_length_le (seq : Nat → Nat) (pos : Nat) :
    (escape_bytes seq pos).1.length ≤ 3 := by
  unfold escape_bytes
  cases escClass (rand seq pos % 50) <;>
    simp [evexBytes, vex3Bytes, vex2Bytes, xopBytes]

/- ----------------------------------------------------------------- -/
/- Claims C2, C3, C4, C5                                             -/
/- ----------------------------------------------------------------- -/

/-- C2: for every requested count `n ≤ 15` and every rand-stream state, no
byte emitted by `generate_prefix_bytes` with the 64-bit flag false lies in
the REX range 0x40–0x4F: the 16 REX table entries are excluded from the
sampling domain entirely. -/
theorem C2_no_rex_in_non64_mode (seq : Nat → Nat) (pos n : Nat)
    (hn : n ≤ 15) (b : Nat) (hb : b ∈ (generate_prefix_bytes seq pos n false).1) :
    ¬(0x40 ≤ b ∧ b ≤ 0x4F) := by
  simp only [generate_prefix_bytes, Bool.false_eq_true, if_false,
    List.mem_map, List.mem_range] at hb
  obtain ⟨i, _, rfl⟩ := hb
  exact prefix_collection_no_rex_below_28 _ (Nat.mod_lt _ (by norm_num))

/-- C2 witness: concrete instantiation at a stream where the claim's
hypotheses hold. -/
theorem C2_no_rex_in_non64_mode_witness :
    ¬(0x40 ≤ (0x66 : Nat) ∧ (0x66 : Nat) ≤ 0x4F) :=
  C2_no_rex_in_non64_mode (fun i => i) 0 3 (by decide) 0x66 (by decide)

/-- C3: for every rand-stream state and both values of the 64-bit flag, one
call of `generate_rand_instr` produces exactly the 64 bytes of the
destination buffer (each index 0..63 written once, none outside); the
prefix count `(r²·r) >> 20` over `r = rand() % 254` never exceeds 15 and
the escape sequence adds at most 3 bytes, so the tail fill covers all
remaining indices up to 63. -/
theorem C3_encoder_writes_exactly_64 (seq : Nat → Nat) (pos : Nat)
    (is_64bit : Bool) :
    (generate_rand_instr seq pos is_64bit).1.length = 64 ∧
    num_prefixes_of (rand seq pos % 254) ≤ 15 ∧
    (escape_bytes seq (generate_prefix_bytes seq (pos + 1)
        (num_prefixes_of (rand seq pos % 254)) is_64bit).2).1.length ≤ 3 := by
  have hn : num_prefixes_of (rand seq pos % 254) ≤ 15 :=
    num_prefixes_of_le _ (Nat.mod_lt _ (by norm_num))
  refine ⟨?_, hn, escape_bytes_length_le _ _⟩
  have hpre := generate_prefix_bytes_length seq (pos + 1)
    (num_prefixes_of (rand seq pos % 254)) is_64bit
  have hesc := escape_bytes_length_le seq (generate_prefix_bytes seq (pos + 1)
    (num_prefixes_of (rand seq pos % 254)) is_64bit).2
  simp only [generate_rand_instr, List.length_append, List.length_map,
    List.length_range]
  omega

/-- C4: the number of draw values `r ∈ [0, 253]` yielding prefix count `k`
is nonincreasing as `k` goes from 0 to 15, and more than half of the 254
draw values yield a count in {0, 1, 2}. -/
theorem C4_prefix_count_mass_nonincreasing (k : Nat) (hk : k < 15) :
    countPrefixCount (k + 1) ≤ countPrefixCount k ∧
    254 < 2 * (countPrefixCount 0 + countPrefixCount 1 + countPrefixCount 2) := by
  revert k hk
  decide

/-- C4 witness: concrete instantiation at `k = 0`. -/
theorem C4_prefix_count_mass_nonincreasing_witness :
    countPrefixCount 1 ≤ countPrefixCount 0 ∧
    254 < 2 * (countPrefixCount 0 + countPrefixCount 1 + countPrefixCount 2) :=
  C4_prefix_count_mass_nonincreasing 0 (by decide)

/-- C5: the 50-way escape draw partitions exactly as 1 outcome each for
no-escape, 0F 0F, 0F 38, 0F 3A and 0F; 6 outcomes each for EVEX, VEX3 and
VEX2; and the remaining 27 outcomes for XOP (classes mutually exclusive
since `escClass` is a function); and the selector always appends at most 3
bytes. -/
theorem C5_escape_class_weights :
    (classCount .noEscape = 1 ∧ classCount .threeDNow = 1 ∧
     classCount .map0F38 = 1 ∧ classCount .map0F3A = 1 ∧
     classCount .map0F = 1 ∧ classCount .evex = 6 ∧
     classCount .vex3 = 6 ∧ classCount .vex2 = 6 ∧ classCount .xop = 27) ∧
    ∀ seq pos, (escape_bytes seq pos).1.length ≤ 3 :=
  ⟨by decide, escape_bytes_length_le⟩

/- ----------------------------------------------------------------- -/
/- Bitwise helper lemmas                                             -/
/- ----------------------------------------------------------------- -/

theorem and_255_eq_mod (a : Nat) : a &&& 255 = a % 256 := by
  have h := Nat.and_pow_two_sub_one_eq_mod a 8
  norm_num at h
  exact h

theorem and_mask_mod_and_eq_zero (a m c : Nat) (hm : m < 256)
    (hmc : m &&& c = 0) : ((a &&& m) % 256) &&& c = 0 := by
  rw [Nat.mod_eq_of_lt (Nat.lt_of_le_of_lt Nat.and_le_right hm),
    Nat.and_assoc, hmc, Nat.and_zero]

theorem or_mod_and_self (a b : Nat) (hb : b < 256) :
    ((a ||| b) % 256) &&& b = b := by
  have h256 : (256 : Nat) = 2 ^ 8 := by norm_num
  rw [h256]
  apply Nat.eq_of_testBit_eq
  intro i
  simp only [Nat.testBit_and, Nat.testBit_mod_two_pow, Nat.testBit_or]
  cases hbi : b.testBit i with
  | false => simp
  | true =>
    rcases Nat.lt_or_ge i 8 with hi | hi
    · simp [hi, hbi]
    · have hblt : b < 2 ^ i :=
        lt_of_lt_of_le hb (Nat.pow_le_pow_right (by norm_num : 0 < 2) hi)
      rw [Nat.testBit_lt_two_pow hblt] at hbi
      cases hbi

/- ----------------------------------------------------------------- -/
/- Claims C1, C6, C7, C9                                             -/
/- ----------------------------------------------------------------- -/

/-- C1: after any submission of the main loop (the `n+1`-st, before the
next begins) the process-wide memento equals exactly the first 16 bytes of
the buffer just submitted and the identifier/label of the configuration
just used; and the external decoder is invoked with that memento already
in place (it is written before the call, never after). -/
theorem C1_memento_reflects_last_submission {α : Type}
    (decode : Memento → ZydisDecoder → List Nat → Nat → α)
    (seq : Nat → Nat) (m0 : Memento) (n : Nat) :
    (fuzz_run decode seq m0 (n + 1)).1 =
      (fuzz_iteration decode seq (fuzz_run decode seq m0 n).2.1
        (fuzz_run decode seq m0 n).1).1 ∧
    ((fuzz_iteration decode seq (fuzz_run decode seq m0 n).2.1
        (fuzz_run decode seq m0 n).1).1.instr_buf =
      (fuzz_iteration decode seq (fuzz_run decode seq m0 n).2.1
        (fuzz_run decode seq m0 n).1).2.2.1.2.take 16) ∧
    ((fuzz_iteration decode seq (fuzz_run decode seq m0 n).2.1
        (fuzz_run decode seq m0 n).1).1.machine_mode_int =
      (fuzz_iteration decode seq (fuzz_run decode seq m0 n).2.1
        (fuzz_run decode seq m0 n).1).2.2.1.1.machine_mode) ∧
    ((fuzz_iteration decode seq (fuzz_run decode seq m0 n).2.1
        (fuzz_run decode seq m0 n).1).1.machine_mode_str =
      machine_mode_label
        (fuzz_iteration decode seq (fuzz_run decode seq m0 n).2.1
          (fuzz_run decode seq m0 n).1).2.2.1.1.machine_mode) ∧
    ((fuzz_iteration decode seq (fuzz_run decode seq m0 n).2.1
        (fuzz_run decode seq m0 n).1).2.2.2 =
      decode
        (fuzz_iteration decode seq (fuzz_run decode seq m0 n).2.1
          (fuzz_run decode seq m0 n).1).1
        (fuzz_iteration decode seq (fuzz_run decode seq m0 n).2.1
          (fuzz_run decode seq m0 n).1).2.2.1.1
        (fuzz_iteration decode seq (fuzz_run decode seq m0 n).2.1
          (fuzz_run decode seq m0 n).1).2.2.1.2 64) :=
  ⟨rfl, rfl, rfl, rfl, rfl⟩

/-- C6 as stated is false on the code: in the EVEX branch the `0x78`
pattern is conditioned on the *second* random word's bits 8–9 (the local
`rv` is reassigned before the test), not the first word's.  With first
word 0 (bits 8–9 zero) and second word 0x100 (bits 8–9 nonzero), the vvvv
byte is `0x100 | 0` truncated to 0x00, which does not contain the pattern
0x78. -/
theorem C6_counterexample :
    (0 : Nat) &&& 0x300 = 0 ∧
    ¬((evexBytes 0 0x100).getD 2 0 &&& 0x78 = 0x78) := by
  decide

/-- C6 amended: for the three-byte families EVEX, VEX3 and XOP the
map-selector byte is masked to exclude the known-invalid subrange exactly
when bits 8–9 (mask 0x300) of the first random word are nonzero, and left
unmasked (the raw low byte, XOR-tagged with 8 for XOP) when they are zero;
the vvvv byte, shared by all four families, has the pattern 0x78 OR-ed
into it exactly when bits 8–9 of the random word supplying *that byte
itself* are zero (the second word for the three-byte families, the single
word for VEX2, which has no map-selector byte). -/
theorem C6_extended_prefix_bias_amended (rv1 rv2 : Nat) :
    ((rv1 &&& 0x300 ≠ 0 → (evexBytes rv1 rv2).getD 1 0 &&& 0x08 = 0) ∧
     (rv1 &&& 0x300 = 0 → (evexBytes rv1 rv2).getD 1 0 = rv1 % 256)) ∧
    ((rv1 &&& 0x300 ≠ 0 → (vex3Bytes rv1 rv2).getD 1 0 &&& 0x1C = 0) ∧
     (rv1 &&& 0x300 = 0 → (vex3Bytes rv1 rv2).getD 1 0 = rv1 % 256)) ∧
    ((rv1 &&& 0x300 ≠ 0 → (xopBytes rv1 rv2).getD 1 0 &&& 0x1C = 0x08) ∧
     (rv1 &&& 0x300 = 0 →
        (xopBytes rv1 rv2).getD 1 0 = (rv1 % 256) ^^^ 0x08)) ∧
    ((rv2 &&& 0x300 = 0 → vvvvByte rv2 &&& 0x78 = 0x78) ∧
     (rv2 &&& 0x300 ≠ 0 → vvvvByte rv2 = rv2 % 256)) ∧
    (evexBytes rv1 rv2).getD 2 0 = vvvvByte rv2 ∧
    (vex3Bytes rv1 rv2).getD 2 0 = vvvvByte rv2 ∧
    (xopBytes rv1 rv2).getD 2 0 = vvvvByte rv2 ∧
    (vex2Bytes rv1).getD 1 0 = vvvvByte rv1 := by
  have eevex : (evexBytes rv1 rv2).getD 1 0 =
      (rv1 &&& if rv1 &&& 0x300 ≠ 0 then 0xF7 else 0xFF) % 256 := rfl
  have evex3 : (vex3Bytes rv1 rv2).getD 1 0 =
      (rv1 &&& if rv1 &&& 0x300 ≠ 0 then 0xE3 else 0xFF) % 256 := rfl
  have exop : (xopBytes rv1 rv2).getD 1 0 =
      ((rv1 &&& if rv1 &&& 0x300 ≠ 0 then 0xE3 else 0xFF) ^^^ 8) % 256 := rfl
  refine ⟨⟨?_, ?_⟩, ⟨?_, ?_⟩, ⟨?_, ?_⟩, ⟨?_, ?_⟩, rfl, rfl, rfl, rfl⟩
  · intro h
    rw [eevex, if_pos h]
    exact and_mask_mod_and_eq_zero rv1 0xF7 0x08 (by norm_num) (by decide)
  · intro h
    rw [eevex, if_neg (by simp [h]), and_255_eq_mod]
    omega
  · intro h
    rw [evex3, if_pos h]
    exact and_mask_mod_and_eq_zero rv1 0xE3 0x1C (by norm_num) (by decide)
  · intro h
    rw [evex3, if_neg (by simp [h]), and_255_eq_mod]
    omega
  · intro h
    rw [exop, if_pos h]
    have hlt : (rv1 &&& 0xE3) ^^^ 8 < 256 :=
      Nat.xor_lt_two_pow (n := 8)
        (Nat.lt_of_le_of_lt Nat.and_le_right (by norm_num)) (by norm_num)
    rw [Nat.mod_eq_of_lt hlt, Nat.and_xor_distrib_right, Nat.and_assoc]
    have h1 : (0xE3 &&& 0x1C : Nat) = 0 := by decide
    have h2 : (8 &&& 0x1C : Nat) = 8 := by decide
    rw [h1, h2, Nat.and_zero, Nat.zero_xor]
  · intro h
    rw [exop, if_neg (by simp [h]), and_255_eq_mod]
    have hlt : (rv1 % 256) ^^^ 8 < 256 :=
      Nat.xor_lt_two_pow (n := 8) (Nat.mod_lt _ (by norm_num)) (by norm_num)
    rw [Nat.mod_eq_of_lt hlt]
  · intro h
    unfold vvvvByte
    rw [if_neg (by simp [h])]
    exact or_mod_and_self rv2 0x78 (by norm_num)
  · intro h
    unfold vvvvByte
    rw [if_pos h, Nat.or_zero]

/-- C6 witness: concrete instantiation of the amended theorem with the
masking condition and the 0x78-forcing condition both discharged. -/
theorem C6_extended_prefix_bias_amended_witness :
    (evexBytes 0x300 0).getD 1 0 &&& 0x08 = 0 ∧ vvvvByte 0 &&& 0x78 = 0x78 :=
  ⟨(C6_extended_prefix_bias_amended 0x300 0).1.1 (by decide),
   (C6_extended_prefix_bias_amended 0x300 0).2.2.2.1.1 (by decide)⟩

/-- Upper-case hexadecimal digit characters. -/
def isUpperHexDigit (c : Char) : Bool :=
  ("0123456789ABCDEF".toList).contains c

/-- C7: whenever the fault handler runs (for any installed signal and any
memento), it emits the configuration identifier and label line, the opcode
header, the 16 recorded bytes each as exactly two hexadecimal digits (plus
a separating space), then a final newline followed by the flush, and its
exit status is `EXIT_FAILURE`; the trace is a function of the signal and
the memento alone. -/
theorem C7_fault_handler_output (sig : SignalType) (m : Memento) :
    (sigabrt_handler sig m).2 = EXIT_FAILURE ∧
    ((sigabrt_handler sig m).1 =
      [.out "\n", .out (modeLine m),
       .out ("Opcode at time of " ++ sigstr sig ++ ":\n")] ++
      (List.range 16).map (fun i => outHex (m.instr_buf.getD i 0)) ++
      [.out "\n", .flush]) ∧
    (sigabrt_handler sig m).1.getLast? = some .flush ∧
    (m.instr_buf.length = 16 →
      (List.range 16).map (fun i => outHex (m.instr_buf.getD i 0)) =
        m.instr_buf.map outHex) ∧
    (∀ b, b < 256 →
      (hex2 b).length = 2 ∧
      ∀ c ∈ (hex2 b).toList, isUpperHexDigit c = true) := by
  refine ⟨rfl, rfl, ?_, ?_, ?_⟩
  · rw [show (sigabrt_handler sig m).1 =
        ([OutEvent.out "\n", OutEvent.out (modeLine m),
          OutEvent.out ("Opcode at time of " ++ sigstr sig ++ ":\n")] ++
         (List.range 16).map (fun i => outHex (m.instr_buf.getD i 0))) ++
        ([OutEvent.out "\n"] ++ [OutEvent.flush]) from rfl]
    rw [← List.append_assoc, List.getLast?_concat]
  · intro h
    apply List.ext_getElem
    · simp [h]
    · intro i h1 h2
      have hi : i < m.instr_buf.length := by
        simp only [List.length_map] at h2
        exact h2
      simp only [List.getElem_map, List.getElem_range,
        List.getD_eq_getElem?_getD, List.getElem?_eq_getElem hi,
        Option.getD_some]
  · intro b hb
    refine ⟨rfl, ?_⟩
    have hdig : ∀ n, n < 16 → isUpperHexDigit (hex_digit n) = true := by decide
    intro c hc
    have hc2 : c = hex_digit (b / 16 % 16) ∨ c = hex_digit (b % 16) := by
      simpa [hex2, String.toList] using hc
    rcases hc2 with rfl | rfl
    · exact hdig _ (Nat.mod_lt _ (by norm_num))
    · exact hdig _ (Nat.mod_lt _ (by norm_num))

/-- C7 witness: concrete instantiation with the memento-length and
byte-range hypotheses discharged. -/
theorem C7_fault_handler_output_witness :
    ((List.range 16).map
        (fun i => outHex ((List.replicate 16 (0xAB : Nat)).getD i 0)) =
      (List.replicate 16 (0xAB : Nat)).map outHex) ∧
    (hex2 0xAB).length = 2 ∧
    (sigabrt_handler .SIGSEGV
      ⟨List.replicate 16 0xAB, .LONG_64, "long64"⟩).2 = EXIT_FAILURE :=
  ⟨(C7_fault_handler_output .SIGSEGV
      ⟨List.replicate 16 0xAB, .LONG_64, "long64"⟩).2.2.2.1 (by decide),
   ((C7_fault_handler_output .SIGSEGV
      ⟨List.replicate 16 0xAB, .LONG_64, "long64"⟩).2.2.2.2 0xAB
      (by decide)).1,
   (C7_fault_handler_output .SIGSEGV
      ⟨List.replicate 16 0xAB, .LONG_64, "long64"⟩).1⟩

/-- C9: the configuration draw `rand() & 3` always yields one of exactly
four values; the selection is total (the draw modulo the mask determines
it), each of the four draw values maps to a distinct configuration, and
the `bits` value passed on to the encoder is 64 exactly when the selected
configuration is one of the two 64-bit decoders. -/
theorem C9_config_selection_total (v i j : Nat) (hi : i < 4) (hj : j < 4)
    (hij : select_config i = select_config j) :
    v &&& 3 < 4 ∧
    select_config v = select_config (v &&& 3) ∧
    ((select_config v).1 = decoder_x86_16 ∨
     (select_config v).1 = decoder_x86_32 ∨
     (select_config v).1 = decoder_x86_64_intel ∨
     (select_config v).1 = decoder_x86_64_amd) ∧
    i = j ∧
    ((select_config v).2 = 64 ↔
      ((select_config v).1 = decoder_x86_64_intel ∨
       (select_config v).1 = decoder_x86_64_amd)) := by
  have h4 : v &&& 3 < 4 :=
    Nat.lt_of_le_of_lt (@Nat.and_le_right v 3) (by norm_num)
  have hij' : i = j := by
    have hd : ∀ a, a < 4 → ∀ b, b < 4 →
        select_config a = select_config b → a = b := by decide
    exact hd i hi j hj hij
  have hcases : v &&& 3 = 0 ∨ v &&& 3 = 1 ∨ v &&& 3 = 2 ∨ v &&& 3 = 3 := by
    omega
  refine ⟨h4, ?_, ?_, hij', ?_⟩ <;>
    rcases hcases with h | h | h | h <;>
      simp only [select_config, h] <;> decide

/-- C9 witness: concrete instantiation with the distinctness hypotheses
discharged. -/
theorem C9_config_selection_total_witness :
    (6 : Nat) &&& 3 < 4 ∧
    select_config 6 = select_config (6 &&& 3) ∧
    ((select_config 6).1 = decoder_x86_16 ∨
     (select_config 6).1 = decoder_x86_32 ∨
     (select_config 6).1 = decoder_x86_64_intel ∨
     (select_config 6).1 = decoder_x86_64_amd) ∧
    (2 : Nat) = 2 ∧
    ((select_config 6).2 = 64 ↔
      ((select_config 6).1 = decoder_x86_64_intel ∨
       (select_config 6).1 = decoder_x86_64_amd)) :=
  C9_config_selection_total 6 2 2 (by decide) (by decide) rfl

/- ----------------------------------------------------------------- -/
/- Claim C8: determinism / sequential consumption of the rand stream  -/
/- ----------------------------------------------------------------- -/

theorem generate_prefix_bytes_pos (seq : Nat → Nat) (pos n : Nat) (b : Bool) :
    (generate_prefix_bytes seq pos n b).2 = pos + n := by
  cases b <;> rfl

theorem generate_prefix_bytes_congr (seq1 seq2 : Nat → Nat) (pos n : Nat)
    (b : Bool) (h : ∀ i, pos ≤ i → i < pos + n → seq1 i = seq2 i) :
    generate_prefix_bytes seq2 pos n b = generate_prefix_bytes seq1 pos n b := by
  have hm : ∀ k : Nat, ((List.range n).map fun i =>
      prefix_collection.getD (rand seq2 (pos + i) % k) 0) =
      ((List.range n).map fun i =>
        prefix_collection.getD (rand seq1 (pos + i) % k) 0) := by
    intro k
    apply List.map_congr_left
    intro a ha
    rw [List.mem_range] at ha
    unfold rand
    rw [h (pos + a) (by omega) (by omega)]
  cases b
  · show ((List.range n).map (fun i =>
        prefix_collection.getD (rand seq2 (pos + i) % 28) 0), pos + n) =
      ((List.range n).map (fun i =>
        prefix_collection.getD (rand seq1 (pos + i) % 28) 0), pos + n)
    rw [hm 28]
  · show ((List.range n).map (fun i =>
        prefix_collection.getD (rand seq2 (pos + i) % 44) 0), pos + n) =
      ((List.range n).map (fun i =>
        prefix_collection.getD (rand seq1 (pos + i) % 44) 0), pos + n)
    rw [hm 44]

theorem rand_congr (seq1 seq2 : Nat → Nat) (i : Nat) (h : seq1 i = seq2 i) :
    rand seq1 i = rand seq2 i := by
  unfold rand
  rw [h]

theorem escape_bytes_pos (seq : Nat → Nat) (pos : Nat) :
    pos + 1 ≤ (escape_bytes seq pos).2 ∧ (escape_bytes seq pos).2 ≤ pos + 3 := by
  unfold escape_bytes
  cases escClass (rand seq pos % 50) <;> simp

theorem escape_bytes_congr (seq1 seq2 : Nat → Nat) (pos : Nat)
    (h : ∀ i, pos ≤ i → i < pos + 3 → seq1 i = seq2 i) :
    escape_bytes seq2 pos = escape_bytes seq1 pos := by
  have h0 : rand seq2 pos = rand seq1 pos := by
    unfold rand
    rw [h pos (by omega) (by omega)]
  have h1 : rand seq2 (pos + 1) = rand seq1 (pos + 1) := by
    unfold rand
    rw [h (pos + 1) (by omega) (by omega)]
  have h2 : rand seq2 (pos + 2) = rand seq1 (pos + 2) := by
    unfold rand
    rw [h (pos + 2) (by omega) (by omega)]
  unfold escape_bytes
  rw [h0]
  cases escClass (rand seq1 pos % 50) <;> rw [h1, h2]

theorem generate_rand_instr_pos_lb (seq : Nat → Nat) (pos : Nat) (b : Bool) :
    pos + 48 ≤ (generate_rand_instr seq pos b).2 := by
  have hfinal : (generate_rand_instr seq pos b).2 =
      (escape_bytes seq (generate_prefix_bytes seq (pos + 1)
          (num_prefixes_of (rand seq pos % 254)) b).2).2 +
        (64 - ((generate_prefix_bytes seq (pos + 1)
            (num_prefixes_of (rand seq pos % 254)) b).1 ++
          (escape_bytes seq (generate_prefix_bytes seq (pos + 1)
            (num_prefixes_of (rand seq pos % 254)) b).2).1).length) := rfl
  have hnp : num_prefixes_of (rand seq pos % 254) ≤ 15 :=
    num_prefixes_of_le _ (Nat.mod_lt _ (by norm_num))
  have h1 := generate_prefix_bytes_pos seq (pos + 1)
    (num_prefixes_of (rand seq pos % 254)) b
  have h2 := generate_prefix_bytes_length seq (pos + 1)
    (num_prefixes_of (rand seq pos % 254)) b
  have h3 := escape_bytes_pos seq (generate_prefix_bytes seq (pos + 1)
    (num_prefixes_of (rand seq pos % 254)) b).2
  have h4 := escape_bytes_length_le seq (generate_prefix_bytes seq (pos + 1)
    (num_prefixes_of (rand seq pos % 254)) b).2
  rw [hfinal, List.length_append]
  omega

theorem generate_rand_instr_congr (seq1 seq2 : Nat → Nat) (pos : Nat)
    (b : Bool)
    (h : ∀ i, pos ≤ i → i < (generate_rand_instr seq1 pos b).2 → seq1 i = seq2 i) :
    generate_rand_instr seq2 pos b = generate_rand_instr seq1 pos b := by
  have hnp : num_prefixes_of (rand seq1 pos % 254) ≤ 15 :=
    num_prefixes_of_le _ (Nat.mod_lt _ (by norm_num))
  have hprepos := generate_prefix_bytes_pos seq1 (pos + 1)
    (num_prefixes_of (rand seq1 pos % 254)) b
  have hprelen := generate_prefix_bytes_length seq1 (pos + 1)
    (num_prefixes_of (rand seq1 pos % 254)) b
  have hescpos := escape_bytes_pos seq1 (generate_prefix_bytes seq1 (pos + 1)
    (num_prefixes_of (rand seq1 pos % 254)) b).2
  have hesclen := escape_bytes_length_le seq1 (generate_prefix_bytes seq1
    (pos + 1) (num_prefixes_of (rand seq1 pos % 254)) b).2
  have hfinal : (generate_rand_instr seq1 pos b).2 =
      (escape_bytes seq1 (generate_prefix_bytes seq1 (pos + 1)
          (num_prefixes_of (rand seq1 pos % 254)) b).2).2 +
        (64 - ((generate_prefix_bytes seq1 (pos + 1)
            (num_prefixes_of (rand seq1 pos % 254)) b).1 ++
          (escape_bytes seq1 (generate_prefix_bytes seq1 (pos + 1)
            (num_prefixes_of (rand seq1 pos % 254)) b).2).1).length) := rfl
  rw [List.length_append] at hfinal
  have h0 : rand seq2 pos = rand seq1 pos := by
    unfold rand
    rw [h pos (by omega) (by omega)]
  have hpre : generate_prefix_bytes seq2 (pos + 1)
      (num_prefixes_of (rand seq1 pos % 254)) b =
      generate_prefix_bytes seq1 (pos + 1)
        (num_prefixes_of (rand seq1 pos % 254)) b := by
    apply generate_prefix_bytes_congr
    intro i hi1 hi2
    exact h i (by omega) (by omega)
  have hesc : escape_bytes seq2 (generate_prefix_bytes seq1 (pos + 1)
      (num_prefixes_of (rand seq1 pos % 254)) b).2 =
      escape_bytes seq1 (generate_prefix_bytes seq1 (pos + 1)
        (num_prefixes_of (rand seq1 pos % 254)) b).2 := by
    apply escape_bytes_congr
    intro i hi1 hi2
    exact h i (by omega) (by omega)
  have htail : ((List.range (64 - ((generate_prefix_bytes seq1 (pos + 1)
      (num_prefixes_of (rand seq1 pos % 254)) b).1 ++
      (escape_bytes seq1 (generate_prefix_bytes seq1 (pos + 1)
        (num_prefixes_of (rand seq1 pos % 254)) b).2).1).length)).map fun i =>
      rand seq2 ((escape_bytes seq1 (generate_prefix_bytes seq1 (pos + 1)
        (num_prefixes_of (rand seq1 pos % 254)) b).2).2 + i) &&& 0xFF) =
      ((List.range (64 - ((generate_prefix_bytes seq1 (pos + 1)
        (num_prefixes_of (rand seq1 pos % 254)) b).1 ++
        (escape_bytes seq1 (generate_prefix_bytes seq1 (pos + 1)
          (num_prefixes_of (rand seq1 pos % 254)) b).2).1).length)).map fun i =>
        rand seq1 ((escape_bytes seq1 (generate_prefix_bytes seq1 (pos + 1)
          (num_prefixes_of (rand seq1 pos % 254)) b).2).2 + i) &&& 0xFF) := by
    apply List.map_congr_left
    intro a ha
    rw [List.mem_range, List.length_append] at ha
    rw [rand_congr seq1 seq2 ((escape_bytes seq1 (generate_prefix_bytes seq1
      (pos + 1) (num_prefixes_of (rand seq1 pos % 254)) b).2).2 + a)
      (h _ (by omega) (by omega))]
  show ((generate_prefix_bytes seq2 (pos + 1)
      (num_prefixes_of (rand seq2 pos % 254)) b).1 ++
      (escape_bytes seq2 (generate_prefix_bytes seq2 (pos + 1)
        (num_prefixes_of (rand seq2 pos % 254)) b).2).1 ++
      (List.range (64 - ((generate_prefix_bytes seq2 (pos + 1)
        (num_prefixes_of (rand seq2 pos % 254)) b).1 ++
        (escape_bytes seq2 (generate_prefix_bytes seq2 (pos + 1)
          (num_prefixes_of (rand seq2 pos % 254)) b).2).1).length)).map
        (fun i => rand seq2 ((escape_bytes seq2 (generate_prefix_bytes seq2
          (pos + 1) (num_prefixes_of (rand seq2 pos % 254)) b).2).2 + i) &&&
          0xFF),
     (escape_bytes seq2 (generate_prefix_bytes seq2 (pos + 1)
        (num_prefixes_of (rand seq2 pos % 254)) b).2).2 +
      (64 - ((generate_prefix_bytes seq2 (pos + 1)
        (num_prefixes_of (rand seq2 pos % 254)) b).1 ++
        (escape_bytes seq2 (generate_prefix_bytes seq2 (pos + 1)
          (num_prefixes_of (rand seq2 pos % 254)) b).2).1).length)) =
    ((generate_prefix_bytes seq1 (pos + 1)
      (num_prefixes_of (rand seq1 pos % 254)) b).1 ++
      (escape_bytes seq1 (generate_prefix_bytes seq1 (pos + 1)
        (num_prefixes_of (rand seq1 pos % 254)) b).2).1 ++
      (List.range (64 - ((generate_prefix_bytes seq1 (pos + 1)
        (num_prefixes_of (rand seq1 pos % 254)) b).1 ++
        (escape_bytes seq1 (generate_prefix_bytes seq1 (pos + 1)
          (num_prefixes_of (rand seq1 pos % 254)) b).2).1).length)).map
        (fun i => rand seq1 ((escape_bytes seq1 (generate_prefix_bytes seq1
          (pos + 1) (num_prefixes_of (rand seq1 pos % 254)) b).2).2 + i) &&&
          0xFF),
     (escape_bytes seq1 (generate_prefix_bytes seq1 (pos + 1)
        (num_prefixes_of (rand seq1 pos % 254)) b).2).2 +
      (64 - ((generate_prefix_bytes seq1 (pos + 1)
        (num_prefixes_of (rand seq1 pos % 254)) b).1 ++
        (escape_bytes seq1 (generate_prefix_bytes seq1 (pos + 1)
          (num_prefixes_of (rand seq1 pos % 254)) b).2).1).length))
  rw [h0, hpre, hesc, htail]

theorem fuzz_iteration_pos_lb {α : Type}
    (decode : Memento → ZydisDecoder → List Nat → Nat → α)
    (seq : Nat → Nat) (pos : Nat) (m : Memento) :
    pos + 49 ≤ (fuzz_iteration decode seq pos m).2.1 := by
  have h := generate_rand_instr_pos_lb seq (pos + 1)
    ((select_config (rand seq pos)).2 == 64)
  have e : (fuzz_iteration decode seq pos m).2.1 =
      (generate_rand_instr seq (pos + 1)
        ((select_config (rand seq pos)).2 == 64)).2 := rfl
  omega

theorem fuzz_iteration_congr {α : Type}
    (decode : Memento → ZydisDecoder → List Nat → Nat → α)
    (seq1 seq2 : Nat → Nat) (pos : Nat) (m : Memento)
    (h : ∀ i, pos ≤ i → i < (fuzz_iteration decode seq1 pos m).2.1 →
      seq1 i = seq2 i) :
    fuzz_iteration decode seq2 pos m = fuzz_iteration decode seq1 pos m := by
  have hlb := fuzz_iteration_pos_lb decode seq1 pos m
  have e : (fuzz_iteration decode seq1 pos m).2.1 =
      (generate_rand_instr seq1 (pos + 1)
        ((select_config (rand seq1 pos)).2 == 64)).2 := rfl
  have h0 : rand seq2 pos = rand seq1 pos := by
    unfold rand
    rw [h pos (by omega) (by omega)]
  have hgen : generate_rand_instr seq2 (pos + 1)
      ((select_config (rand seq1 pos)).2 == 64) =
      generate_rand_instr seq1 (pos + 1)
        ((select_config (rand seq1 pos)).2 == 64) := by
    apply generate_rand_instr_congr
    intro i hi1 hi2
    exact h i (by omega) (by omega)
  show ((wrapped_ZydisDecoderDecodeBuffer decode m
      (select_config (rand seq2 pos)).1
      (generate_rand_instr seq2 (pos + 1)
        ((select_config (rand seq2 pos)).2 == 64)).1 64).1,
    (generate_rand_instr seq2 (pos + 1)
      ((select_config (rand seq2 pos)).2 == 64)).2,
    ((select_config (rand seq2 pos)).1,
      (generate_rand_instr seq2 (pos + 1)
        ((select_config (rand seq2 pos)).2 == 64)).1),
    (wrapped_ZydisDecoderDecodeBuffer decode m
      (select_config (rand seq2 pos)).1
      (generate_rand_instr seq2 (pos + 1)
        ((select_config (rand seq2 pos)).2 == 64)).1 64).2) =
    fuzz_iteration decode seq1 pos m
  rw [h0, hgen]
  rfl

theorem fuzz_run_pos_mono {α : Type}
    (decode : Memento → ZydisDecoder → List Nat → Nat → α)
    (seq : Nat → Nat) (m0 : Memento) (n : Nat) :
    (fuzz_run decode seq m0 n).2.1 ≤ (fuzz_run decode seq m0 (n + 1)).2.1 := by
  have h := fuzz_iteration_pos_lb decode seq (fuzz_run decode seq m0 n).2.1
    (fuzz_run decode seq m0 n).1
  have e : (fuzz_run decode seq m0 (n + 1)).2.1 =
      (fuzz_iteration decode seq (fuzz_run decode seq m0 n).2.1
        (fuzz_run decode seq m0 n).1).2.1 := rfl
  omega

/-- C8: replay determinism.  The entire run — final memento, final rand
cursor, the sequence of generated 64-byte candidate buffers with their
selected decoding configurations, and the decoder results — is a function
of the values the single rand stream yields at the sequentially consumed
positions: any stream agreeing with `seq1` on every position below the
final cursor produces a byte-identical run. -/
theorem C8_run_replay_deterministic {α : Type}
    (decode : Memento → ZydisDecoder → List Nat → Nat → α)
    (seq1 seq2 : Nat → Nat) (m0 : Memento) (n : Nat)
    (h : ∀ i, i < (fuzz_run decode seq1 m0 n).2.1 → seq1 i = seq2 i) :
    fuzz_run decode seq2 m0 n = fuzz_run decode seq1 m0 n := by
  induction n with
  | zero => rfl
  | succ k ih =>
    have hmono := fuzz_run_pos_mono decode seq1 m0 k
    have hacc : fuzz_run decode seq2 m0 k = fuzz_run decode seq1 m0 k :=
      ih fun i hi => h i (by omega)
    have hstep : fuzz_iteration decode seq2 (fuzz_run decode seq1 m0 k).2.1
        (fuzz_run decode seq1 m0 k).1 =
        fuzz_iteration decode seq1 (fuzz_run decode seq1 m0 k).2.1
          (fuzz_run decode seq1 m0 k).1 := by
      apply fuzz_iteration_congr
      intro i hi1 hi2
      exact h i hi2
    show ((fuzz_iteration decode seq2 (fuzz_run decode seq2 m0 k).2.1
            (fuzz_run decode seq2 m0 k).1).1,
         (fuzz_iteration decode seq2 (fuzz_run decode seq2 m0 k).2.1
            (fuzz_run decode seq2 m0 k).1).2.1,
         (fuzz_run decode seq2 m0 k).2.2.1 ++
           [(fuzz_iteration decode seq2 (fuzz_run decode seq2 m0 k).2.1
              (fuzz_run decode seq2 m0 k).1).2.2.1],
         (fuzz_run decode seq2 m0 k).2.2.2 ++
           [(fuzz_iteration decode seq2 (fuzz_run decode seq2 m0 k).2.1
              (fuzz_run decode seq2 m0 k).1).2.2.2]) =
      fuzz_run decode seq1 m0 (k + 1)
    rw [hacc, hstep]
    rfl

/-- C8 witness: a concrete one-iteration run over the identity stream and
a stream agreeing with it below the consumed cursor, with the agreement
hypothesis discharged. -/
theorem C8_run_replay_deterministic_witness :
    fuzz_run (fun _ _ _ _ => ()) (fun i => if i < 65 then i else 999)
      ⟨List.replicate 16 0, .REAL_16, "real16"⟩ 1 =
    fuzz_run (fun _ _ _ _ => ()) (fun i => i)
      ⟨List.replicate 16 0, .REAL_16, "real16"⟩ 1 := by
  apply C8_run_replay_deterministic
  intro i hi
  have h65 : (fuzz_run (fun _ _ _ _ => ()) (fun i => i)
      (⟨List.replicate 16 0, .REAL_16, "real16"⟩ : Memento) 1).2.1 = 65 := by
    decide
  rw [h65] at hi
  show i = if i < 65 then i else 999
  rw [if_pos hi]

end ZydisFuzzer
